import Mathlib

/-!
Verification of the mushroomz lighting controller core: the color model,
fixture smoothing, scene manager, modulator, event bus, idle handler and
the DMX render loop, shallowly embedded over exact rational arithmetic.
Python floats are modelled as rationals; Python `int()` truncation and
Python `%` (floored modulus) are modelled explicitly. Calls into the
`math` C library (`sin`, `cos`, `pi`) are modelled as parameters, since
they are external collaborators of the code under verification.
-/

/-- Python `int()` applied to a float: truncation toward zero. -/
def pyInt (q : ℚ) : ℤ := if 0 ≤ q then ⌊q⌋ else ⌈q⌉

/-- Python `%` on floats: `a % b = a - b * floor (a / b)`, so for a positive
modulus the result lies in `[0, b)`. -/
def pyMod (a b : ℚ) : ℚ := a - b * ⌊a / b⌋

/-- Clamp an integer channel value to the DMX range 0..255, as in
`Color.__post_init__` and `DMXOutput.set_channel`. -/
def clamp255 (x : ℤ) : ℤ := max 0 (min 255 x)

/-- Clamp a rational to the unit interval, Python `max(0, min(1, x))`. -/
def clamp01 (x : ℚ) : ℚ := max 0 (min 1 x)

/-- The values of `math` the code calls out to (`math.sin`, `math.cos`,
`math.pi`): external library functions, taken as parameters of the model. -/
structure MathFns where
  sin : ℚ → ℚ
  cos : ℚ → ℚ
  pi : ℚ

/-- A concrete instantiation of the math library used by closed evaluations;
any other instantiation works equally for every theorem taking `MathFns`. -/
def mathZero : MathFns := ⟨fun _ => 0, fun _ => 0, 0⟩

/-! ## Color (src/fixtures/rgb_par.py) -/

/-- An RGB color, the `Color` dataclass: three channel values. -/
structure Color where
  r : ℤ
  g : ℤ
  b : ℤ
deriving DecidableEq, Repr

/-- The `Color(...)` constructor together with `__post_init__`, which clamps
every channel into 0..255. -/
def Color.make (r g b : ℤ) : Color :=
  ⟨clamp255 r, clamp255 g, clamp255 b⟩

/-- All three channels lie in the DMX range 0..255. Every color the program
builds goes through `__post_init__` and satisfies this. -/
def Color.InRange (c : Color) : Prop :=
  0 ≤ c.r ∧ c.r ≤ 255 ∧ 0 ≤ c.g ∧ c.g ≤ 255 ∧ 0 ≤ c.b ∧ c.b ≤ 255

instance (c : Color) : Decidable c.InRange := by
  unfold Color.InRange; infer_instance

/-- `Color.from_hsv`: sector-based HSV to RGB conversion
(h in degrees, s and v in [0,1]). -/
def Color.from_hsv (h s v : ℚ) : Color :=
  let h' := pyMod h 360
  let c := v * s
  let x := c * (1 - |pyMod (h' / 60) 2 - 1|)
  let m := v - c
  let rgb : ℚ × ℚ × ℚ :=
    if h' < 60 then (c, x, 0)
    else if h' < 120 then (x, c, 0)
    else if h' < 180 then (0, c, x)
    else if h' < 240 then (0, x, c)
    else if h' < 300 then (x, 0, c)
    else (c, 0, x)
  Color.make (pyInt ((rgb.1 + m) * 255)) (pyInt ((rgb.2.1 + m) * 255))
    (pyInt ((rgb.2.2 + m) * 255))

/-- `Color.scaled`: a new color with every channel scaled by `intensity`. -/
def Color.scaled (c : Color) (intensity : ℚ) : Color :=
  Color.make (pyInt (c.r * intensity)) (pyInt (c.g * intensity))
    (pyInt (c.b * intensity))

/-- `Color.blend`: linear blend toward `other` (`amount` 0 = self,
1 = other), with Python `int()` truncation per channel. -/
def Color.blend (c other : Color) (amount : ℚ) : Color :=
  Color.make (pyInt (c.r + (other.r - c.r) * amount))
    (pyInt (c.g + (other.g - c.g) * amount))
    (pyInt (c.b + (other.b - c.b) * amount))

/-- `Color.to_dmx`: the list of DMX channel values, always three entries. -/
def Color.to_dmx (c : Color) : List ℤ := [c.r, c.g, c.b]

/-! ## RGBFixture (src/fixtures/rgb_par.py) -/

/-- A single RGB PAR fixture: current color, target color, intensity
multiplier, 1-indexed DMX start address and channel count. -/
structure RGBFixture where
  name : String
  address : ℤ
  channels : ℕ
  color : Color
  target_color : Color
  intensity : ℚ
deriving DecidableEq, Repr

/-- The `RGBFixture(name, address, channels)` constructor: colors start at
`Color()` = black, intensity at 1. -/
def RGBFixture.make (name : String) (address : ℤ) (channels : ℕ) : RGBFixture :=
  ⟨name, address, channels, Color.make 0 0 0, Color.make 0 0 0, 1⟩

/-- The `color` property setter: assigning `fixture.color = value` sets both
the current and the target color. -/
def RGBFixture.color_assign (f : RGBFixture) (value : Color) : RGBFixture :=
  { f with color := value, target_color := value }

/-- The `intensity` property setter: clamps into [0, 1]. -/
def RGBFixture.intensity_assign (f : RGBFixture) (value : ℚ) : RGBFixture :=
  { f with intensity := max 0 (min 1 value) }

/-- `RGBFixture.set_target`: sets only the target color. -/
def RGBFixture.set_target (f : RGBFixture) (c : Color) : RGBFixture :=
  { f with target_color := c }

/-- `RGBFixture.update`: blends the current color toward the target by
`min(1, smoothing * dt * 60)`. -/
def RGBFixture.update (f : RGBFixture) (dt : ℚ) (smoothing : ℚ) : RGBFixture :=
  { f with color := f.color.blend f.target_color (min 1 (smoothing * dt * 60)) }

/-- `RGBFixture.get_dmx_values`: current color scaled by intensity, as DMX
channel values. -/
def RGBFixture.get_dmx_values (f : RGBFixture) : List ℤ :=
  (f.color.scaled f.intensity).to_dmx

/-! ## Mushroom (src/fixtures/mushroom.py) -/

/-- A mushroom: a fixture group with a stable integer id. -/
structure Mushroom where
  id : ℕ
  name : String
  fixtures : List RGBFixture
deriving DecidableEq, Repr

/-- `Mushroom.set_color`: assigns the same color to every fixture (through
the `color` property setter). -/
def Mushroom.set_color (m : Mushroom) (c : Color) : Mushroom :=
  { m with fixtures := m.fixtures.map (·.color_assign c) }

/-- `Mushroom.set_target`: sets the target color of every fixture. -/
def Mushroom.set_target (m : Mushroom) (c : Color) : Mushroom :=
  { m with fixtures := m.fixtures.map (·.set_target c) }

/-- `Mushroom.set_intensity`: sets the intensity of every fixture (through
the clamping `intensity` property setter). -/
def Mushroom.set_intensity (m : Mushroom) (v : ℚ) : Mushroom :=
  { m with fixtures := m.fixtures.map (·.intensity_assign v) }

/-- `Mushroom.update`: smoothing update of every fixture. -/
def Mushroom.update (m : Mushroom) (dt : ℚ) (smoothing : ℚ) : Mushroom :=
  { m with fixtures := m.fixtures.map (·.update dt smoothing) }

/-! ## Python dict helpers
The per-mushroom dictionaries (`_scenes`, `_phase`, `_resistance`,
`_smoothed`) are modelled as association lists with unique keys:
`dset` replaces an existing binding in place or appends a new one, as a
Python dict assignment does; `dget` is `dict.get`. -/

/-- Python `d[k] = v`. -/
def dset {A : Type} : List (ℕ × A) → ℕ → A → List (ℕ × A)
  | [], k, v => [(k, v)]
  | (k', v') :: t, k, v =>
      if k' = k then (k, v) :: t else (k', v') :: dset t k v

/-- Python `d.get(k)`. -/
def dget {A : Type} : List (ℕ × A) → ℕ → Option A
  | [], _ => none
  | (k', v') :: t, k => if k' = k then some v' else dget t k

/-! ## Scenes (src/scenes/) -/

/-- `PastelFadeScene` state: the `_active` flag of the base class, the
per-mushroom phase-offset dict `_phase`, the elapsed-time accumulator
`_time`, and the tunables `cycle_duration` and `phase_offset`. -/
structure PastelFadeScene where
  active : Bool
  phase : List (ℕ × ℚ)
  time : ℚ
  cycle_duration : ℚ
  phase_offset : ℚ
deriving DecidableEq, Repr

/-- `PastelFadeScene()`: fresh instance with `_time = 0`,
`cycle_duration = 30`, `phase_offset = 0.25`. -/
def PastelFadeScene.make : PastelFadeScene :=
  ⟨false, [], 0, 30, 1 / 4⟩

/-- `PastelFadeScene.activate`: sets `_active` and resets `_time` to 0. -/
def PastelFadeScene.activate (s : PastelFadeScene) : PastelFadeScene :=
  { s with active := true, time := 0 }

/-- The 8 pastel HSV anchor points `PASTELS`. -/
def PASTELS : List (ℚ × ℚ × ℚ) :=
  [(350, 7/20, 9/10), (30, 2/5, 19/20), (55, 7/20, 19/20), (140, 7/20, 17/20),
   (180, 7/20, 17/20), (220, 7/20, 17/20), (270, 3/10, 17/20), (320, 7/20, 17/20)]

/-- `PASTELS[i]` for the indices the scene computes (always 0..7). -/
def pastelAt (i : ℤ) : ℚ × ℚ × ℚ := PASTELS.getD i.toNat (0, 0, 0)

/-- `PastelFadeScene.update`: advances `_time`, inserts the phase offset for
a mushroom on first sight, computes the cyclic position, interpolates
between the two nearest anchors with a cosine ease (handling hue wrap), and
pushes the color onto the mushroom with smoothing 0.05. -/
def PastelFadeScene.update (M : MathFns) (s : PastelFadeScene) (m : Mushroom)
    (dt : ℚ) : PastelFadeScene × Mushroom :=
  let time := s.time + dt
  let phaseMap :=
    match dget s.phase m.id with
    | none => dset s.phase m.id (m.id * s.phase_offset)
    | some _ => s.phase
  let phase := (dget phaseMap m.id).getD 0
  let cycle_pos := pyMod (time / s.cycle_duration + phase) 1
  let color_index := cycle_pos * 8
  let idx1 := pyInt color_index % 8
  let idx2 := (idx1 + 1) % 8
  let blend0 := color_index - pyInt color_index
  let blend := (1 - M.cos (blend0 * M.pi)) / 2
  let a1 := pastelAt idx1
  let a2 := pastelAt idx2
  let hw : ℚ × ℚ :=
    if |a2.1 - a1.1| > 180 then
      (if a1.1 > a2.1 then (a1.1, a2.1 + 360) else (a1.1 + 360, a2.1))
    else (a1.1, a2.1)
  let h := pyMod (hw.1 + (hw.2 - hw.1) * blend) 360
  let sat := a1.2.1 + (a2.2.1 - a1.2.1) * blend
  let v := a1.2.2 + (a2.2.2 - a1.2.2) * blend
  let m1 := (m.set_target (Color.from_hsv h sat v)).update dt (1/20)
  ({ s with time := time, phase := phaseMap }, m1)

/-- `AudioPulseScene` state: `_active`, the decaying `_beat_intensity`, the
latest `_audio_level` and band levels, and the `base_hue` and `decay_rate`
parameters (an open params mapping in the source, modelled as optional
fields read with their library defaults 280 and 3). -/
structure AudioPulseScene where
  active : Bool
  beat_intensity : ℚ
  audio_level : ℚ
  low : ℚ
  mid : ℚ
  high : ℚ
  base_hue : Option ℚ
  decay_rate : Option ℚ
deriving DecidableEq, Repr

/-- `AudioPulseScene()`: fresh instance. -/
def AudioPulseScene.make : AudioPulseScene :=
  ⟨false, 0, 0, 0, 0, 0, none, none⟩

/-- `AudioPulseScene.activate`: sets `_active`, resets beat and level. -/
def AudioPulseScene.activate (s : AudioPulseScene) : AudioPulseScene :=
  { s with active := true, beat_intensity := 0, audio_level := 0 }

/-- `AudioPulseScene.update`: decays the beat intensity, derives hue from
band content, saturation and brightness from the beat, and pushes the color
with smoothing 0.3. -/
def AudioPulseScene.update (s : AudioPulseScene) (m : Mushroom) (dt : ℚ) :
    AudioPulseScene × Mushroom :=
  let bi := max 0 (s.beat_intensity - dt * (s.decay_rate.getD 3))
  let base_brightness := 3/10 + s.audio_level * (3/10)
  let beat_brightness := bi * (7/10)
  let hue_shift := s.low * 30 - s.high * 30
  let hue := pyMod ((s.base_hue.getD 280) + hue_shift) 360
  let saturation := 3/5 + bi * (2/5)
  let brightness := min 1 (base_brightness + beat_brightness)
  let m1 := (m.set_target (Color.from_hsv hue saturation brightness)).update dt (3/10)
  ({ s with beat_intensity := bi }, m1)

/-- `BioGlowScene` state: `_active`, the per-mushroom `_resistance` and
`_smoothed` dicts, `_time`, and the `low_color` and `high_color` HSV anchor
parameters (optional fields with their library defaults). -/
structure BioGlowScene where
  active : Bool
  resistance : List (ℕ × ℚ)
  smoothed : List (ℕ × ℚ)
  time : ℚ
  low_color : Option (ℚ × ℚ × ℚ)
  high_color : Option (ℚ × ℚ × ℚ)
deriving DecidableEq, Repr

/-- `BioGlowScene()`: fresh instance. -/
def BioGlowScene.make : BioGlowScene :=
  ⟨false, [], [], 0, none, none⟩

/-- `BioGlowScene.activate`: sets `_active` and resets `_time`. -/
def BioGlowScene.activate (s : BioGlowScene) : BioGlowScene :=
  { s with active := true, time := 0 }

/-- `BioGlowScene.update`: smooths the latest resistance reading, adds a
sinusoidal organic offset phase-shifted by the mushroom id, interpolates
between the two anchor colors, and pushes with smoothing 0.08. -/
def BioGlowScene.update (M : MathFns) (s : BioGlowScene) (m : Mushroom)
    (dt : ℚ) : BioGlowScene × Mushroom :=
  let time := s.time + dt
  let raw := (dget s.resistance m.id).getD (1/2)
  let smoothedMap :=
    match dget s.smoothed m.id with
    | none => dset s.smoothed m.id raw
    | some sm => dset s.smoothed m.id (sm + (raw - sm) * dt * 2)
  let r0 := (dget smoothedMap m.id).getD 0
  let organic := M.sin (time * (1/2) + m.id) * (1/10)
  let resistance := clamp01 (r0 + organic)
  let lo := s.low_color.getD (120, 3/5, 2/5)
  let hi := s.high_color.getD (60, 4/5, 9/10)
  let h := lo.1 + (hi.1 - lo.1) * resistance
  let sat := lo.2.1 + (hi.2.1 - lo.2.1) * resistance
  let v := lo.2.2 + (hi.2.2 - lo.2.2) * resistance
  let m1 := (m.set_target (Color.from_hsv h sat v)).update dt (2/25)
  ({ s with time := time, smoothed := smoothedMap }, m1)

/-- `ManualScene` state: `_active`, the hue/saturation/brightness
accumulators and the cached stick and gyro axis values. The terminal status
line (a pure output effect, rate-limited by `_last_display`) and the global
manual-display flag are not part of the lighting state and are not
modelled. -/
structure ManualScene where
  active : Bool
  hue : ℚ
  saturation : ℚ
  brightness : ℚ
  left_x : ℚ
  left_y : ℚ
  right_x : ℚ
  right_y : ℚ
  gyro_x : ℚ
  gyro_y : ℚ
  gyro_z : ℚ
deriving DecidableEq, Repr

/-- `ManualScene()`: fresh instance with hue 0, saturation 1,
brightness 0.8. -/
def ManualScene.make : ManualScene :=
  ⟨false, 0, 1, 4/5, 0, 0, 0, 0, 0, 0, 0⟩

/-- `ManualScene.activate`: sets `_active`. -/
def ManualScene.activate (s : ManualScene) : ManualScene :=
  { s with active := true }

/-- `ManualScene.update`: integrates stick deflection and gyro rates into
the hue/saturation/brightness accumulators and pushes the resulting color
with smoothing 0.5. -/
def ManualScene.update (s : ManualScene) (m : Mushroom) (dt : ℚ) :
    ManualScene × Mushroom :=
  let hue1 := pyMod (s.hue + s.left_x * dt * 360) 360
  let sat1 := clamp01 (s.saturation + (-s.left_y * dt * (3/2)))
  let bright := max (1/10) (min 1 (s.brightness + (-s.right_y * dt * (3/2))))
  let hue2 := pyMod (hue1 + s.gyro_z * dt * 200) 360
  let sat2 := clamp01 (sat1 + (-s.gyro_x * dt * (1/2)))
  let m1 := (m.set_target (Color.from_hsv hue2 sat2 bright)).update dt (1/2)
  ({ s with hue := hue2, saturation := sat2, brightness := bright }, m1)

/-- A bound scene instance: one of the four variants with its state. -/
inductive Scene where
  | pastel (s : PastelFadeScene)
  | audio (s : AudioPulseScene)
  | bio (s : BioGlowScene)
  | manual (s : ManualScene)
deriving DecidableEq, Repr

/-- `Scene.update(mushroom, dt)`, dispatched on the bound variant. -/
def Scene.update (M : MathFns) : Scene → Mushroom → ℚ → Scene × Mushroom
  | .pastel s, m, dt => let r := PastelFadeScene.update M s m dt; (.pastel r.1, r.2)
  | .audio s, m, dt => let r := AudioPulseScene.update s m dt; (.audio r.1, r.2)
  | .bio s, m, dt => let r := BioGlowScene.update M s m dt; (.bio r.1, r.2)
  | .manual s, m, dt => let r := ManualScene.update s m dt; (.manual r.1, r.2)

/-- `scene.activate()`, dispatched on the variant. -/
def Scene.activate : Scene → Scene
  | .pastel s => .pastel s.activate
  | .audio s => .audio s.activate
  | .bio s => .bio s.activate
  | .manual s => .manual s.activate

/-- A freshly constructed and activated `PastelFadeScene()`, as the idle
handler and the initial binding build one per mushroom. -/
def freshPastel : Scene := .pastel PastelFadeScene.make.activate

/-! ## DMX output buffer (src/output/base.py) -/

/-- The 512-byte DMX buffer `_dmx_data`, addressed 1..512 (slot `a` of the
function is `_dmx_data[a - 1]`). -/
def DMXBuffer : Type := ℤ → ℤ

/-- `bytearray(512)`: all channels zero. -/
def DMXBuffer.init : DMXBuffer := fun _ => 0

/-- `DMXOutput.set_channel`: writes the clamped value at a 1-indexed
address, ignoring addresses outside 1..512. -/
def DMXBuffer.set_channel (buf : DMXBuffer) (address : ℤ) (value : ℤ) : DMXBuffer :=
  if 1 ≤ address ∧ address ≤ 512 then
    fun a => if a = address then clamp255 value else buf a
  else buf

/-- `DMXOutput.set_channels`: writes consecutive channels starting at a
1-indexed address (`enumerate` is modelled by shifting the address). -/
def DMXBuffer.set_channels (buf : DMXBuffer) (address : ℤ) : List ℤ → DMXBuffer
  | [] => buf
  | v :: vs => (buf.set_channel address v).set_channels (address + 1) vs

/-- `DMXOutput.get_channel`: the current value of a channel, 0 outside
1..512. -/
def DMXBuffer.get_channel (buf : DMXBuffer) (address : ℤ) : ℤ :=
  if 1 ≤ address ∧ address ≤ 512 then buf address else 0

/-! ## Scene manager (src/scene_manager.py) -/

/-- `SceneManager` state: the mushrooms, the per-mushroom `_scenes` dict,
the `_selected` id set and the `_blackout` flag. (The Launchpad LED
feedback is a pure output effect on an optional device and is not part of
the lighting state.) -/
structure SceneManager where
  mushrooms : List Mushroom
  scenes : List (ℕ × Scene)
  selected : List ℕ
  blackout : Bool
deriving DecidableEq, Repr

/-- The body of the non-blackout loop of `SceneManager.update`: for each
mushroom in order, set intensity 1, look up its bound scene and, when one
is bound, run its `update` — writing the mutated scene object back into
the dict slot it occupies. -/
def SceneManager.updateLoop (M : MathFns) (dt : ℚ) :
    List Mushroom → List (ℕ × Scene) → List Mushroom × List (ℕ × Scene)
  | [], scenes => ([], scenes)
  | m :: rest, scenes =>
      let m1 := m.set_intensity 1
      match dget scenes m1.id with
      | none =>
          let r := SceneManager.updateLoop M dt rest scenes
          (m1 :: r.1, r.2)
      | some s =>
          let su := Scene.update M s m1 dt
          let r := SceneManager.updateLoop M dt rest (dset scenes m1.id su.1)
          (su.2 :: r.1, r.2)

/-- `SceneManager.update`: under blackout, set every intensity to 0 and
return without touching the scenes; otherwise run every bound scene. -/
def SceneManager.update (M : MathFns) (sm : SceneManager) (dt : ℚ) : SceneManager :=
  if sm.blackout then
    { sm with mushrooms := sm.mushrooms.map (·.set_intensity 0) }
  else
    let r := SceneManager.updateLoop M dt sm.mushrooms sm.scenes
    { sm with mushrooms := r.1, scenes := r.2 }

/-- `SceneManager._handle_idle`: deactivate whatever is bound (the old
instance is discarded) and bind a freshly constructed, activated
`PastelFadeScene` to every mushroom. -/
def SceneManager.handle_idle (sm : SceneManager) : SceneManager :=
  { sm with
    scenes := sm.mushrooms.foldl (fun d m => dset d m.id freshPastel) sm.scenes }

/-! ## Modulator (src/modulator.py) -/

/-- `LFOWaveform`. -/
inductive LFOWaveform where
  | off
  | sine
  | square
  | triangle
deriving DecidableEq, Repr

/-- `LFOTarget`. -/
inductive LFOTarget where
  | hue
  | saturation
  | brightness
deriving DecidableEq, Repr

/-- The `params` payload of a one-shot effect, an open dict in the source:
the two keys the code reads, as optional fields with the defaults
`params.get` supplies (`color` default white, `shift` default 0). -/
structure OneShotParams where
  color : Option (ℤ × ℤ × ℤ)
  shift : Option ℚ
deriving DecidableEq, Repr

/-- `OneShotEffect`: a decaying one-shot effect record. -/
structure OneShotEffect where
  effect_type : String
  intensity : ℚ
  decay_rate : ℚ
  params : OneShotParams
deriving DecidableEq, Repr

/-- `Modulator` state: LFO waveform/target/phase/frequency/depth, the
cached `_current_modulation`, the one-shot queue, the three stick offsets
and the RGB history buffer for visualization. -/
structure Modulator where
  lfo_waveform : LFOWaveform
  lfo_target : LFOTarget
  lfo_phase : ℚ
  lfo_frequency : ℚ
  lfo_depth : ℚ
  current_modulation : ℚ
  one_shots : List OneShotEffect
  stick_hue_offset : ℚ
  stick_saturation_offset : ℚ
  stick_brightness_offset : ℚ
  rgb_history : List (List (ℕ × (ℤ × ℤ × ℤ)))
deriving DecidableEq, Repr

/-- `Modulator(event_bus)`: initial state. -/
def Modulator.make : Modulator :=
  ⟨.off, .hue, 0, 1/2, 1/2, 0, [], 0, 0, 0, []⟩

/-- `Modulator._compute_lfo_value`: the signed waveform value at the
current phase (`math.sin` taken from the math parameters). -/
def Modulator.compute_lfo_value (M : MathFns) (w : LFOWaveform) (phase : ℚ) : ℚ :=
  match w with
  | .off => 0
  | .sine => M.sin (phase * 2 * M.pi)
  | .square => if phase < 1/2 then 1 else -1
  | .triangle =>
      if phase < 1/4 then phase * 4
      else if phase < 3/4 then 1 - (phase - 1/4) * 4
      else -1 + (phase - 3/4) * 4

/-- One pass of the decay loop of `Modulator.update` over the one-shot
queue: every intensity drops by `dt * decay_rate` and only effects still
strictly positive stay. -/
def decayStep (dt : ℚ) (l : List OneShotEffect) : List OneShotEffect :=
  (l.map (fun e => { e with intensity := e.intensity - dt * e.decay_rate })).filter
    (fun e => 0 < e.intensity)

/-- `Modulator.update`: advances the LFO phase, caches the current LFO
value scaled by depth, and decays the one-shot queue. -/
def Modulator.update (M : MathFns) (st : Modulator) (dt : ℚ) : Modulator :=
  let phase := pyMod (st.lfo_phase + dt * st.lfo_frequency) 1
  { st with
    lfo_phase := phase,
    current_modulation := Modulator.compute_lfo_value M st.lfo_waveform phase * st.lfo_depth,
    one_shots := decayStep dt st.one_shots }

/-- `Modulator._rgb_to_hsv`: RGB 0..255 to (h in 0..360, s and v in 0..1). -/
def Modulator.rgb_to_hsv (r g b : ℤ) : ℚ × ℚ × ℚ :=
  let rn : ℚ := r / 255
  let gn : ℚ := g / 255
  let bn : ℚ := b / 255
  let maxC := max rn (max gn bn)
  let minC := min rn (min gn bn)
  let delta := maxC - minC
  let v := maxC
  let s := if maxC = 0 then 0 else delta / maxC
  let h :=
    if delta = 0 then 0
    else if maxC = rn then 60 * pyMod ((gn - bn) / delta) 6
    else if maxC = gn then 60 * ((bn - rn) / delta + 2)
    else 60 * ((rn - gn) / delta + 4)
  (h, s, v)

/-- The one-shot compositing loop of `Modulator.apply`: flash effects keep
the maximum intensity (the flash color of the latest flash entry wins);
hue-shift effects add `shift * intensity`. -/
def oneShotFold (l : List OneShotEffect) : ℚ × Color × ℚ :=
  l.foldl
    (fun acc e =>
      if e.effect_type = "flash" then
        let cp := e.params.color.getD (255, 255, 255)
        (max acc.1 e.intensity, Color.make cp.1 cp.2.1 cp.2.2, acc.2.2)
      else if e.effect_type = "hue_shift" then
        (acc.1, acc.2.1, acc.2.2 + e.params.shift.getD 0 * e.intensity)
      else acc)
    (0, Color.make 255 255 255, 0)

/-- `Modulator.apply`, threading the modulator object through as the source
method does: the method only reads its fields (no assignment to `self`
occurs in its body), computes in HSV space — LFO term on the configured
target, the three stick offsets, then the one-shot composite — and returns
the new color together with the unchanged state. -/
def Modulator.applyM (st : Modulator) (c : Color) : Color × Modulator :=
  let hsv := Modulator.rgb_to_hsv c.r c.g c.b
  let m := st.current_modulation
  let h1 :=
    if st.lfo_target = .hue then pyMod (hsv.1 + m * 60) 360 else hsv.1
  let s1 :=
    if st.lfo_target = .saturation then clamp01 (hsv.2.1 + m * (1/2)) else hsv.2.1
  let v1 :=
    if st.lfo_target = .brightness then clamp01 (hsv.2.2 + m * (1/2)) else hsv.2.2
  let h2 := pyMod (h1 + st.stick_hue_offset * 60) 360
  let s2 := clamp01 (s1 + st.stick_saturation_offset * (1/2))
  let v2 := clamp01 (v1 + st.stick_brightness_offset * (1/2))
  let os := oneShotFold st.one_shots
  let h3 := pyMod (h2 + os.2.2) 360
  let result := Color.from_hsv h3 s2 v2
  (if 0 < os.1 then result.blend os.2.1 os.1 else result, st)

/-- `Modulator.apply` as the returned color alone. -/
def Modulator.apply (st : Modulator) (c : Color) : Color :=
  (st.applyM c).1

/-- `Modulator.record_sample`: appends a visualization sample and trims the
history to `_history_size = 100` entries. -/
def Modulator.record_sample (st : Modulator)
    (sample : List (ℕ × (ℤ × ℤ × ℤ))) : Modulator :=
  let hist := st.rgb_history ++ [sample]
  { st with rgb_history := if 100 < hist.length then hist.drop 1 else hist }

/-- `Modulator.trigger_oneshot` and the button/gesture handlers that append
a one-shot effect to the queue. -/
def Modulator.trigger_oneshot (st : Modulator) (e : OneShotEffect) : Modulator :=
  { st with one_shots := st.one_shots ++ [e] }

/-! ## Event bus (src/events.py) -/

/-- `EventType`. -/
inductive EventType where
  | controller_button
  | controller_axis
  | controller_gyro
  | controller_accel
  | osc_audio_beat
  | osc_audio_level
  | osc_bio
  | idle_timeout
  | scene_change
  | mushroom_select
deriving DecidableEq, Repr

/-- `Event`: a type tag, a payload mapping of named fields (numeric values
suffice for every field the system carries) and an optional target
mushroom id. -/
structure Event where
  type : EventType
  data : List (String × ℚ)
  mushroom_id : Option ℕ := none
deriving DecidableEq, Repr

/-- A subscribed handler over an abstract world state `σ`: called on the
state and the event, it returns the state it reached and, when it raised,
the message of the exception (`except Exception` in the bus catches every
handler exception). -/
abbrev Handler (σ : Type) := σ → Event → σ × Option String

/-- The inner handler loop of `EventBus.process` for one dequeued event:
each handler runs inside `try/except`; a raised exception appends an error
line to the printed log and the loop continues with the next handler. -/
def EventBus.processEvent {σ : Type} (handlers : List (Handler σ)) (e : Event)
    (st : σ) (log : List String) : σ × List String :=
  handlers.foldl
    (fun acc h =>
      match h acc.1 e with
      | (st1, none) => (st1, acc.2)
      | (st1, some msg) => (st1, acc.2 ++ ["Error in event handler: " ++ msg]))
    (st, log)

/-- `EventBus.process` draining a queue of events: strictly in arrival
order, every currently subscribed handler for the type of each event runs;
`handlerMap` is the `_handlers` dict (`get` with default `[]`). -/
def EventBus.process {σ : Type} (handlerMap : EventType → List (Handler σ))
    (queue : List Event) (st : σ) : σ × List String :=
  queue.foldl (fun acc e => EventBus.processEvent (handlerMap e.type) e acc.1 acc.2)
    (st, [])

/-- The failure semantics the specification asks of the bus, written from
its words: for each queued event in order, invoke every subscribed handler
in order; a handler that raises contributes its logged error line and the
run continues with the remaining handlers and the remaining events, with
no way to abort. Proved equal to `EventBus.process` below. -/
def EventBus.specRunHandlers {σ : Type} (e : Event) :
    List (Handler σ) → σ → σ × List String
  | [], st => (st, [])
  | h :: hs, st =>
      let r := h st e
      let rest := EventBus.specRunHandlers e hs r.1
      (rest.1,
        (match r.2 with
         | none => []
         | some msg => ["Error in event handler: " ++ msg]) ++ rest.2)

/-- The specified drain over the whole queue (see
`EventBus.specRunHandlers`). -/
def EventBus.specRun {σ : Type} (handlerMap : EventType → List (Handler σ)) :
    List Event → σ → σ × List String
  | [], st => (st, [])
  | e :: es, st =>
      let r := EventBus.specRunHandlers e (handlerMap e.type) st
      let rest := EventBus.specRun handlerMap es r.1
      (rest.1, r.2 ++ rest.2)

/-! ## Idle handler (src/inputs/idle.py) -/

/-- `IdleHandler` state: the configured timeout, `_last_activity` and
`_is_idle`. -/
structure IdleHandler where
  timeout : ℚ
  last_activity : ℚ
  is_idle : Bool
deriving DecidableEq, Repr

/-- `IdleHandler.activity`: records activity at wall-clock `now`, resetting
the idle flag. -/
def IdleHandler.activity (st : IdleHandler) (now : ℚ) : IdleHandler :=
  { st with last_activity := now, is_idle := false }

/-- One pass of the `IdleHandler.run` loop at wall-clock `now`: when not
already idle and the elapsed time reaches the timeout, set `_is_idle` and
publish the timeout event (the returned flag). -/
def IdleHandler.check (st : IdleHandler) (now : ℚ) : IdleHandler × Bool :=
  if st.is_idle then (st, false)
  else if st.timeout ≤ now - st.last_activity then
    ({ st with is_idle := true }, true)
  else (st, false)

/-- The `run` loop observed at a sequence of check instants with no
intervening `activity` call: the final state and how many timeout events
were published. -/
def IdleHandler.checkRun (st : IdleHandler) : List ℚ → IdleHandler × ℕ
  | [] => (st, 0)
  | t :: ts =>
      let r := st.check t
      let rest := r.1.checkRun ts
      (rest.1, (if r.2 then 1 else 0) + rest.2)

/-! ## Render loop and flash queue (src/main.py) -/

/-- A flash-override request of `LightingController._flash_queue`:
`(address, channels, color, end_time)`. -/
structure Flash where
  address : ℤ
  channels : ℕ
  color : List ℤ
  end_time : ℚ
deriving DecidableEq, Repr

/-- `LightingController` state touched by the render loop: the scene
manager (which owns the mushrooms), the modulator, the flash queue and the
DMX output buffer. -/
structure LightingController where
  sm : SceneManager
  modulator : Modulator
  flash_queue : List Flash
  dmx : DMXBuffer

/-- `LightingController.add_flash` at wall-clock `now`: drops any queued
flash for the same address and appends the new request with
`end_time = now + duration`. -/
def LightingController.add_flash (st : LightingController) (address : ℤ)
    (channels : ℕ) (color : List ℤ) (duration : ℚ) (now : ℚ) : LightingController :=
  { st with flash_queue :=
      (st.flash_queue.filter (fun f => f.address ≠ address)) ++
        [⟨address, channels, color, now + duration⟩] }

/-- The flash-override pass of the render loop: each not-yet-expired
request overwrites the buffer at its address with its color truncated to
its channel count and stays queued; expired requests are dropped. -/
def flashLoop (now : ℚ) (queue : List Flash) (buf : DMXBuffer) :
    DMXBuffer × List Flash :=
  queue.foldl
    (fun acc f =>
      if now < f.end_time then
        (acc.1.set_channels f.address (f.color.take f.channels), acc.2 ++ [f])
      else acc)
    (buf, [])

/-- The DMX composition pass of the render loop: for every fixture of every
mushroom, the modulated current color scaled by the fixture intensity is
written at the fixture address. -/
def renderWrites (md : Modulator) (mushrooms : List Mushroom) (buf : DMXBuffer) :
    DMXBuffer :=
  mushrooms.foldl
    (fun buf m =>
      m.fixtures.foldl
        (fun buf f =>
          buf.set_channels f.address ((md.apply f.color).scaled f.intensity).to_dmx)
        buf)
    buf

/-- One tick of `LightingController._render_loop` at wall-clock `now` with
frame delta `dt`: scene-manager update, modulator update, per-fixture DMX
composition, the visualization sample (first fixture of each mushroom,
recorded into the modulator history), then the flash overrides. The buffer
left in `dmx` is what `send()` transmits this tick. -/
def LightingController.render_tick (M : MathFns) (st : LightingController)
    (now dt : ℚ) : LightingController :=
  let sm := SceneManager.update M st.sm dt
  let md := Modulator.update M st.modulator dt
  let sample := sm.mushrooms.filterMap
    (fun m => m.fixtures.head?.map
      (fun f =>
        let mc := md.apply f.color
        (m.id, (mc.r, mc.g, mc.b))))
  let buf := renderWrites md sm.mushrooms st.dmx
  let fl := flashLoop now st.flash_queue buf
  { sm := sm, modulator := md.record_sample sample, flash_queue := fl.2, dmx := fl.1 }

/-! ## Arithmetic helper lemmas -/

theorem pyInt_intCast (n : ℤ) : pyInt (n : ℚ) = n := by
  unfold pyInt
  split
  · exact Int.floor_intCast n
  · exact Int.ceil_intCast n

theorem clamp255_eq_self {x : ℤ} (h1 : 0 ≤ x) (h2 : x ≤ 255) : clamp255 x = x := by
  unfold clamp255; omega

theorem clamp255_nonneg (x : ℤ) : 0 ≤ clamp255 x := by unfold clamp255; omega

theorem clamp255_le (x : ℤ) : clamp255 x ≤ 255 := by unfold clamp255; omega

theorem Color.make_inRange (r g b : ℤ) : (Color.make r g b).InRange :=
  ⟨clamp255_nonneg r, clamp255_le r, clamp255_nonneg g, clamp255_le g,
    clamp255_nonneg b, clamp255_le b⟩

theorem Color.make_eq_self {c : Color} (h : c.InRange) : Color.make c.r c.g c.b = c := by
  obtain ⟨r, g, b⟩ := c
  unfold Color.InRange at h
  unfold Color.make clamp255
  simp only [Color.mk.injEq]
  simp only at h
  omega

/-- Blending a color with itself changes nothing (for clamped colors). -/
theorem Color.blend_self {c : Color} (h : c.InRange) (a : ℚ) : c.blend c a = c := by
  unfold Color.blend
  have e : ∀ x : ℤ, (x : ℚ) + ((x : ℚ) - x) * a = (x : ℚ) := by intro x; ring
  rw [e, e, e, pyInt_intCast, pyInt_intCast, pyInt_intCast]
  exact Color.make_eq_self h

/-- One blended channel stays in the closed interval spanned by the current
and the target channel, for a blend amount in [0,1]. -/
theorem blend_chan_between (c t : ℤ) (b : ℚ) (hc0 : 0 ≤ c) (hc1 : c ≤ 255)
    (ht0 : 0 ≤ t) (ht1 : t ≤ 255) (hb0 : 0 ≤ b) (hb1 : b ≤ 1) :
    min c t ≤ clamp255 (pyInt ((c : ℚ) + ((t : ℚ) - c) * b)) ∧
      clamp255 (pyInt ((c : ℚ) + ((t : ℚ) - c) * b)) ≤ max c t := by
  set q : ℚ := (c : ℚ) + ((t : ℚ) - c) * b with hq
  rcases le_total c t with h | h
  · have hct : (c : ℚ) ≤ (t : ℚ) := by exact_mod_cast h
    have hq1 : (c : ℚ) ≤ q := by nlinarith
    have hq2 : q ≤ (t : ℚ) := by nlinarith
    have h0 : (0 : ℚ) ≤ q := le_trans (by exact_mod_cast hc0) hq1
    have hp : pyInt q = ⌊q⌋ := if_pos h0
    have hl : c ≤ ⌊q⌋ := Int.le_floor.mpr hq1
    have hr : ⌊q⌋ ≤ t := by exact_mod_cast le_trans (Int.floor_le q) hq2
    rw [hp]
    unfold clamp255
    constructor <;> omega
  · have hct : (t : ℚ) ≤ (c : ℚ) := by exact_mod_cast h
    have hq1 : (t : ℚ) ≤ q := by nlinarith
    have hq2 : q ≤ (c : ℚ) := by nlinarith
    have h0 : (0 : ℚ) ≤ q := le_trans (by exact_mod_cast ht0) hq1
    have hp : pyInt q = ⌊q⌋ := if_pos h0
    have hl : t ≤ ⌊q⌋ := Int.le_floor.mpr hq1
    have hr : ⌊q⌋ ≤ c := by exact_mod_cast le_trans (Int.floor_le q) hq2
    rw [hp]
    unfold clamp255
    constructor <;> omega

/-- A blend with amount exactly 1 lands on the target. -/
theorem Color.blend_one (c t : Color) (ht : t.InRange) : c.blend t 1 = t := by
  unfold Color.blend
  have e : ∀ x y : ℤ, (x : ℚ) + ((y : ℚ) - x) * 1 = (y : ℚ) := by intro x y; ring
  rw [e, e, e, pyInt_intCast, pyInt_intCast, pyInt_intCast]
  exact Color.make_eq_self ht

/-! ## C10: direct color assignment cancels smoothing -/

/-- C10: assigning `fixture.color = c` sets both the current and the target
color to `c`, so a subsequent `update(dt, smoothing)` with any `dt` and
`smoothing` leaves the current color exactly `c`; `set_target` instead
changes only the target and leaves the current color untouched. -/
theorem claim_C10_color_assign (f : RGBFixture) (c : Color) (dt smoothing : ℚ)
    (h : c.InRange) :
    (f.color_assign c).color = c ∧ (f.color_assign c).target_color = c ∧
      ((f.color_assign c).update dt smoothing).color = c ∧
      (f.set_target c).color = f.color ∧ (f.set_target c).target_color = c := by
  refine ⟨rfl, rfl, ?_, rfl, rfl⟩
  show (Color.blend c c _) = c
  exact Color.blend_self h _

theorem claim_C10_witness :
    ((RGBFixture.make "cap" 1 3).color_assign (Color.make 10 20 30)).color =
        Color.make 10 20 30 ∧
      ((RGBFixture.make "cap" 1 3).color_assign (Color.make 10 20 30)).target_color =
        Color.make 10 20 30 ∧
      (((RGBFixture.make "cap" 1 3).color_assign (Color.make 10 20 30)).update 1 (1/2)).color =
        Color.make 10 20 30 ∧
      ((RGBFixture.make "cap" 1 3).set_target (Color.make 10 20 30)).color =
        (RGBFixture.make "cap" 1 3).color ∧
      ((RGBFixture.make "cap" 1 3).set_target (Color.make 10 20 30)).target_color =
        Color.make 10 20 30 :=
  claim_C10_color_assign (RGBFixture.make "cap" 1 3) (Color.make 10 20 30) 1 (1/2)
    (Color.make_inRange 10 20 30)

/-! ## C9: Modulator.apply is deterministic and mutation-free -/

/-- C9: `Modulator.apply` returns the modulator state unchanged, and a
second call on the state coming out of the first call (with the same input
color) returns the same color: the function is deterministic and performs
no hidden mutation. -/
theorem claim_C9_apply_pure (st : Modulator) (c : Color) :
    (st.applyM c).2 = st ∧
      ((st.applyM c).2.applyM c).1 = (st.applyM c).1 ∧
      st.apply c = (st.applyM c).1 := by
  exact ⟨rfl, rfl, rfl⟩

/-! ## C5: fixture smoothing -/

theorem pyInt_255 : pyInt 255 = 255 := by exact_mod_cast pyInt_intCast 255

theorem pyInt_zero : pyInt 0 = 0 := by exact_mod_cast pyInt_intCast 0

/-- Channel-wise interval bound for `Color.blend` with an amount in
[0,1]. -/
theorem Color.blend_between {c t : Color} (b : ℚ) (hc : c.InRange)
    (ht : t.InRange) (hb0 : 0 ≤ b) (hb1 : b ≤ 1) :
    (min c.r t.r ≤ (c.blend t b).r ∧ (c.blend t b).r ≤ max c.r t.r) ∧
      (min c.g t.g ≤ (c.blend t b).g ∧ (c.blend t b).g ≤ max c.g t.g) ∧
      (min c.b t.b ≤ (c.blend t b).b ∧ (c.blend t b).b ≤ max c.b t.b) := by
  obtain ⟨h1, h2, h3, h4, h5, h6⟩ := hc
  obtain ⟨k1, k2, k3, k4, k5, k6⟩ := ht
  unfold Color.blend Color.make
  exact ⟨blend_chan_between c.r t.r b h1 h2 k1 k2 hb0 hb1,
    blend_chan_between c.g t.g b h3 h4 k3 k4 hb0 hb1,
    blend_chan_between c.b t.b b h5 h6 k5 k6 hb0 hb1⟩

/-- C5 corrected: one `RGBFixture.update` step keeps every channel of the
current color inside the closed interval spanned by the previous current
channel and the target channel (no overshoot, no divergence), and when the
blend factor `min(1, smoothing * dt * 60)` saturates at 1 — in particular
`smoothing = 1.0` at `dt ≥ 1/60` — the current color lands exactly on the
target in this single step. Exact convergence in general is NOT guaranteed
(see the counterexample: `smoothing = 1.0` with a small `dt` leaves the
color strictly short of the target, and a channel below its target can
stall there forever because of `int()` truncation). -/
theorem claim_C5_smoothing (f : RGBFixture) (dt smoothing : ℚ)
    (hc : f.color.InRange) (ht : f.target_color.InRange)
    (hdt : 0 ≤ dt) (hs : 0 ≤ smoothing) :
    (min f.color.r f.target_color.r ≤ ((f.update dt smoothing).color).r ∧
        ((f.update dt smoothing).color).r ≤ max f.color.r f.target_color.r) ∧
      (min f.color.g f.target_color.g ≤ ((f.update dt smoothing).color).g ∧
        ((f.update dt smoothing).color).g ≤ max f.color.g f.target_color.g) ∧
      (min f.color.b f.target_color.b ≤ ((f.update dt smoothing).color).b ∧
        ((f.update dt smoothing).color).b ≤ max f.color.b f.target_color.b) ∧
      (1 ≤ smoothing * dt * 60 → (f.update dt smoothing).color = f.target_color) := by
  have hb0 : 0 ≤ min 1 (smoothing * dt * 60) :=
    le_min zero_le_one (by positivity)
  have hb1 : min 1 (smoothing * dt * 60) ≤ 1 := min_le_left _ _
  have hbet := Color.blend_between (min 1 (smoothing * dt * 60)) hc ht hb0 hb1
  refine ⟨hbet.1, hbet.2.1, hbet.2.2, ?_⟩
  intro hone
  show f.color.blend f.target_color (min 1 (smoothing * dt * 60)) = f.target_color
  rw [min_eq_left hone]
  exact Color.blend_one f.color f.target_color ht

theorem claim_C5_witness :
    (min ((RGBFixture.make "f" 1 3).color).r
          ((RGBFixture.make "f" 1 3).target_color).r ≤
        (((RGBFixture.make "f" 1 3).update 1 (1/10)).color).r ∧
      (((RGBFixture.make "f" 1 3).update 1 (1/10)).color).r ≤
        max ((RGBFixture.make "f" 1 3).color).r
          ((RGBFixture.make "f" 1 3).target_color).r) ∧
    (min ((RGBFixture.make "f" 1 3).color).g
          ((RGBFixture.make "f" 1 3).target_color).g ≤
        (((RGBFixture.make "f" 1 3).update 1 (1/10)).color).g ∧
      (((RGBFixture.make "f" 1 3).update 1 (1/10)).color).g ≤
        max ((RGBFixture.make "f" 1 3).color).g
          ((RGBFixture.make "f" 1 3).target_color).g) ∧
    (min ((RGBFixture.make "f" 1 3).color).b
          ((RGBFixture.make "f" 1 3).target_color).b ≤
        (((RGBFixture.make "f" 1 3).update 1 (1/10)).color).b ∧
      (((RGBFixture.make "f" 1 3).update 1 (1/10)).color).b ≤
        max ((RGBFixture.make "f" 1 3).color).b
          ((RGBFixture.make "f" 1 3).target_color).b) ∧
    (1 ≤ (1/10 : ℚ) * 1 * 60 →
      ((RGBFixture.make "f" 1 3).update 1 (1/10)).color =
        (RGBFixture.make "f" 1 3).target_color) :=
  claim_C5_smoothing (RGBFixture.make "f" 1 3) 1 (1/10)
    (Color.make_inRange 0 0 0) (Color.make_inRange 0 0 0)
    (by norm_num) (by norm_num)

/-- C5 counterexample: with `smoothing = 1.0` and `dt = 1/120 > 0` a single
update does not reach the target (the claim promises it does for every
`dt > 0`): starting at black with target white the fixture lands at
(127,127,127). -/
theorem claim_C5_counterexample :
    (((RGBFixture.make "f" 1 3).set_target (Color.make 255 255 255)).update
        (1/120) 1).color = Color.make 127 127 127 ∧
      Color.make 127 127 127 ≠ Color.make 255 255 255 ∧ (0 : ℚ) < 1/120 := by
  refine ⟨?_, by with_unfolding_all decide, by norm_num⟩
  with_unfolding_all decide

/-! ## C6: HSV conversion anchors -/

/-- Zero saturation yields gray at the given value, whatever the hue. -/
theorem from_hsv_szero (h v : ℚ) :
    Color.from_hsv h 0 v = Color.make (pyInt (v * 255)) (pyInt (v * 255)) (pyInt (v * 255)) := by
  unfold Color.from_hsv
  simp only [mul_zero, zero_mul, sub_zero]
  split_ifs <;> simp [zero_add, add_zero]

/-- Zero value yields black, whatever the hue and saturation. -/
theorem from_hsv_vzero (h s : ℚ) : Color.from_hsv h s 0 = Color.make 0 0 0 := by
  unfold Color.from_hsv
  simp only [zero_mul, zero_sub]
  split_ifs <;> simp [pyInt_zero]

/-- C6: the six sector-boundary anchors of `from_hsv`, plus gray/white at
zero saturation and black at zero value, exactly (integer rounding incurs
no error at these anchors). -/
theorem claim_C6_hsv_anchors :
    Color.from_hsv 0 1 1 = Color.make 255 0 0 ∧
      Color.from_hsv 60 1 1 = Color.make 255 255 0 ∧
      Color.from_hsv 120 1 1 = Color.make 0 255 0 ∧
      Color.from_hsv 180 1 1 = Color.make 0 255 255 ∧
      Color.from_hsv 240 1 1 = Color.make 0 0 255 ∧
      Color.from_hsv 300 1 1 = Color.make 255 0 255 ∧
      (∀ h : ℚ, Color.from_hsv h 0 1 = Color.make 255 255 255) ∧
      (∀ h s : ℚ, Color.from_hsv h s 0 = Color.make 0 0 0) := by
  refine ⟨?_, ?_, ?_, ?_, ?_, ?_, ?_, from_hsv_vzero⟩
  · with_unfolding_all decide
  · with_unfolding_all decide
  · with_unfolding_all decide
  · with_unfolding_all decide
  · with_unfolding_all decide
  · with_unfolding_all decide
  · intro h
    rw [from_hsv_szero h 1]
    norm_num [pyInt_255]

/-! ## C7: one-shot decay -/

/-- A sequence of `Modulator.update` calls with the given frame deltas. -/
def Modulator.updRun (M : MathFns) (st : Modulator) (dts : List ℚ) : Modulator :=
  dts.foldl (Modulator.update M) st

/-- The decay loop iterated over a sequence of frame deltas. -/
def decayFold (dts : List ℚ) (l : List OneShotEffect) : List OneShotEffect :=
  dts.foldl (fun l dt => decayStep dt l) l

theorem decayStep_append (dt : ℚ) (l1 l2 : List OneShotEffect) :
    decayStep dt (l1 ++ l2) = decayStep dt l1 ++ decayStep dt l2 := by
  simp [decayStep, List.filter_append]

theorem decayFold_append (dts : List ℚ) (l1 l2 : List OneShotEffect) :
    decayFold dts (l1 ++ l2) = decayFold dts l1 ++ decayFold dts l2 := by
  induction dts generalizing l1 l2 with
  | nil => rfl
  | cons dt dts ih =>
      show decayFold dts (decayStep dt (l1 ++ l2)) = _
      rw [decayStep_append, ih]
      rfl

theorem decayFold_nil (dts : List ℚ) : decayFold dts [] = [] := by
  induction dts with
  | nil => rfl
  | cons dt dts ih => simpa [decayFold, decayStep] using ih

/-- One effect decays linearly at its own rate; the current state of the
fields and update order do not matter. -/
theorem update_one_shots_set (M : MathFns) (dt : ℚ) (st : Modulator)
    (l : List OneShotEffect) :
    Modulator.update M { st with one_shots := l } dt =
      { Modulator.update M st dt with one_shots := decayStep dt l } := rfl

theorem updRun_one_shots_set (M : MathFns) (dts : List ℚ) (st : Modulator)
    (l : List OneShotEffect) :
    Modulator.updRun M { st with one_shots := l } dts =
      { Modulator.updRun M st dts with one_shots := decayFold dts l } := by
  induction dts generalizing st l with
  | nil => rfl
  | cons dt dts ih =>
      show Modulator.updRun M (Modulator.update M { st with one_shots := l } dt) dts = _
      rw [update_one_shots_set, ih]
      rfl

/-- A single effect whose intensity is exhausted by the total elapsed time
is no longer in the queue after the update sequence. -/
theorem decayFold_single_dead (dts : List ℚ) :
    ∀ e : OneShotEffect, 0 < e.intensity →
      e.intensity ≤ e.decay_rate * dts.sum → decayFold dts [e] = [] := by
  induction dts with
  | nil =>
      intro e hpos hle
      simp only [List.sum_nil, mul_zero] at hle
      linarith
  | cons dt dts ih =>
      intro e hpos hle
      show decayFold dts (decayStep dt [e]) = []
      by_cases hp : 0 < e.intensity - dt * e.decay_rate
      · have hstep : decayStep dt [e] =
            [{ e with intensity := e.intensity - dt * e.decay_rate }] := by
          simp [decayStep, List.filter, hp]
        rw [hstep]
        refine ih _ hp ?_
        simp only [List.sum_cons] at hle ⊢
        nlinarith [hle]
      · have hstep : decayStep dt [e] = [] := by
          simp [decayStep, List.filter, hp]
        rw [hstep, decayFold_nil]

/-- C7: a one-shot effect created with intensity 1.0 and decay rate r > 0
is gone after update calls whose deltas sum to at least 1/r — the whole
modulator state then equals the state of a run in which the effect was
never added, so in particular the one-shot set is empty again when it
started empty, and `apply` returns exactly what it returns with no
one-shots ever added (identical LFO and stick state). -/
theorem claim_C7_oneshot_decay (M : MathFns) (st : Modulator) (e : OneShotEffect)
    (dts : List ℚ) (hi : e.intensity = 1) (hr : 0 < e.decay_rate)
    (hsum : 1 / e.decay_rate ≤ dts.sum) :
    Modulator.updRun M (st.trigger_oneshot e) dts = Modulator.updRun M st dts ∧
      (st.one_shots = [] →
        (Modulator.updRun M (st.trigger_oneshot e) dts).one_shots = []) ∧
      ∀ c : Color,
        (Modulator.updRun M (st.trigger_oneshot e) dts).apply c =
          (Modulator.updRun M st dts).apply c := by
  have hdead : decayFold dts [e] = [] := by
    refine decayFold_single_dead dts e (by rw [hi]; norm_num) ?_
    rw [hi]
    calc (1 : ℚ) = e.decay_rate * (1 / e.decay_rate) := by field_simp
    _ ≤ e.decay_rate * dts.sum := by
        exact mul_le_mul_of_nonneg_left hsum (le_of_lt hr)
  have hmain : Modulator.updRun M (st.trigger_oneshot e) dts =
      Modulator.updRun M st dts := by
    show Modulator.updRun M { st with one_shots := st.one_shots ++ [e] } dts = _
    rw [updRun_one_shots_set, decayFold_append, hdead, List.append_nil]
    have hself : Modulator.updRun M { st with one_shots := st.one_shots } dts =
        { Modulator.updRun M st dts with one_shots := decayFold dts st.one_shots } :=
      updRun_one_shots_set M dts st st.one_shots
    rw [← hself]
  refine ⟨hmain, ?_, fun c => by rw [hmain]⟩
  intro hempty
  rw [hmain]
  have h2 : (Modulator.updRun M st dts).one_shots = decayFold dts st.one_shots :=
    congrArg Modulator.one_shots (updRun_one_shots_set M dts st st.one_shots)
  rw [h2, hempty, decayFold_nil]

theorem claim_C7_witness :
    Modulator.updRun mathZero (Modulator.make.trigger_oneshot
        ⟨"flash", 1, 2, ⟨none, none⟩⟩) [1/4, 1/4] =
      Modulator.updRun mathZero Modulator.make [1/4, 1/4] ∧
    (Modulator.make.one_shots = [] →
      (Modulator.updRun mathZero (Modulator.make.trigger_oneshot
          ⟨"flash", 1, 2, ⟨none, none⟩⟩) [1/4, 1/4]).one_shots = []) ∧
    ∀ c : Color,
      (Modulator.updRun mathZero (Modulator.make.trigger_oneshot
          ⟨"flash", 1, 2, ⟨none, none⟩⟩) [1/4, 1/4]).apply c =
        (Modulator.updRun mathZero Modulator.make [1/4, 1/4]).apply c :=
  claim_C7_oneshot_decay mathZero Modulator.make ⟨"flash", 1, 2, ⟨none, none⟩⟩
    [1/4, 1/4] rfl (by norm_num) (by norm_num)

/-! ## C4: event-bus failure semantics -/

theorem processEvent_eq {σ : Type} (handlers : List (Handler σ)) (e : Event) :
    ∀ (st : σ) (log : List String),
      EventBus.processEvent handlers e st log =
        ((EventBus.specRunHandlers e handlers st).1,
          log ++ (EventBus.specRunHandlers e handlers st).2) := by
  induction handlers with
  | nil => intro st log; simp [EventBus.processEvent, EventBus.specRunHandlers]
  | cons h hs ih =>
      intro st log
      show List.foldl _ _ (h :: hs) = _
      rw [List.foldl_cons]
      rcases hr : h st e with ⟨st1, exc⟩
      cases exc with
      | none =>
          have := ih st1 log
          simp only [EventBus.processEvent] at this
          simp only [hr, this, EventBus.specRunHandlers, hr, List.nil_append]
      | some msg =>
          have := ih st1 (log ++ ["Error in event handler: " ++ msg])
          simp only [EventBus.processEvent] at this
          simp only [hr, this, EventBus.specRunHandlers, hr, List.append_assoc,
            List.singleton_append]

theorem process_foldl_eq {σ : Type} (handlerMap : EventType → List (Handler σ))
    (queue : List Event) :
    ∀ (st : σ) (log : List String),
      queue.foldl
          (fun acc e => EventBus.processEvent (handlerMap e.type) e acc.1 acc.2)
          (st, log) =
        ((EventBus.specRun handlerMap queue st).1,
          log ++ (EventBus.specRun handlerMap queue st).2) := by
  induction queue with
  | nil => intro st log; simp [EventBus.specRun]
  | cons e es ih =>
      intro st log
      rw [List.foldl_cons, processEvent_eq]
      rw [ih]
      simp [EventBus.specRun, List.append_assoc]

/-- C4: draining the queue with `EventBus.process` (each handler call
wrapped in try/except, exceptions logged) is exactly the specified run
that invokes every subscribed handler of every queued event in order,
collecting the error line of each raising handler: a raising handler
stops neither the remaining handlers of its event nor the draining of
later events, and no exception escapes the loop (the drain is a total
function into final state and log). -/
theorem claim_C4_bus_fault_isolation {σ : Type}
    (handlerMap : EventType → List (Handler σ)) (queue : List Event) (st : σ) :
    EventBus.process handlerMap queue st = EventBus.specRun handlerMap queue st := by
  show queue.foldl _ (st, []) = _
  rw [process_foldl_eq]
  simp

/-! ## C8: idle timeout -/

theorem dget_dset_self {A : Type} (d : List (ℕ × A)) (k : ℕ) (v : A) :
    dget (dset d k v) k = some v := by
  induction d with
  | nil => simp [dset, dget]
  | cons p t ih =>
      by_cases h : p.1 = k
      · simp [dset, dget, h]
      · simpa [dset, dget, h] using ih

theorem dget_dset_ne {A : Type} (d : List (ℕ × A)) (k k' : ℕ) (v : A)
    (h : k' ≠ k) : dget (dset d k v) k' = dget d k' := by
  induction d with
  | nil => simp [dset, dget, Ne.symm h]
  | cons p t ih =>
      obtain ⟨pk, pv⟩ := p
      show dget (if pk = k then (k, v) :: t else (pk, pv) :: dset t k v) k' = _
      by_cases hp : pk = k
      · subst hp
        simp [dget, Ne.symm h]
      · by_cases hpk : pk = k'
        · subst hpk
          rw [if_neg hp]
          simp [dget]
        · simp [dget, hp, hpk, ih]

/-- Once `_is_idle` is set, the check loop never publishes again (while no
activity call occurs). -/
theorem checkRun_idle (ts : List ℚ) :
    ∀ st : IdleHandler, st.is_idle = true → st.checkRun ts = (st, 0) := by
  induction ts with
  | nil => intro st _; rfl
  | cons t ts ih =>
      intro st h
      show (let r := st.check t
            let rest := r.1.checkRun ts
            (rest.1, (if r.2 then 1 else 0) + rest.2)) = (st, 0)
      have hc : st.check t = (st, false) := by
        unfold IdleHandler.check
        rw [h]
        simp
      simp [hc, ih st h]

/-- The check loop publishes at most one timeout event. -/
theorem checkRun_le_one (ts : List ℚ) :
    ∀ st : IdleHandler, (st.checkRun ts).2 ≤ 1 := by
  induction ts with
  | nil => intro st; simp [IdleHandler.checkRun]
  | cons t ts ih =>
      intro st
      show (let r := st.check t
            let rest := r.1.checkRun ts
            (rest.1, (if r.2 then 1 else 0) + rest.2)).2 ≤ 1
      by_cases hidle : st.is_idle = true
      · have hc : st.check t = (st, false) := by
          unfold IdleHandler.check; rw [hidle]; simp
        simpa [hc] using ih st
      · have hidle' : st.is_idle = false := by
          cases h : st.is_idle
          · rfl
          · exact absurd h hidle
        by_cases htr : st.timeout ≤ t - st.last_activity
        · have hc : st.check t = ({ st with is_idle := true }, true) := by
            unfold IdleHandler.check; rw [hidle']; simp [htr]
          have hrest := checkRun_idle ts { st with is_idle := true } rfl
          simp [hc, hrest]
        · have hc : st.check t = (st, false) := by
            unfold IdleHandler.check; rw [hidle']; simp [htr]
          simpa [hc] using ih st

/-- When some check instant sees the timeout elapsed, exactly one timeout
event is published. -/
theorem checkRun_eq_one (ts : List ℚ) :
    ∀ st : IdleHandler, st.is_idle = false →
      (∃ t ∈ ts, st.timeout ≤ t - st.last_activity) →
      (st.checkRun ts).2 = 1 := by
  induction ts with
  | nil => intro st _ h; simp at h
  | cons t ts ih =>
      intro st hidle h
      show (let r := st.check t
            let rest := r.1.checkRun ts
            (rest.1, (if r.2 then 1 else 0) + rest.2)).2 = 1
      by_cases htr : st.timeout ≤ t - st.last_activity
      · have hc : st.check t = ({ st with is_idle := true }, true) := by
          unfold IdleHandler.check; rw [hidle]; simp [htr]
        have hrest := checkRun_idle ts { st with is_idle := true } rfl
        simp [hc, hrest]
      · have hc : st.check t = (st, false) := by
          unfold IdleHandler.check; rw [hidle]; simp [htr]
        have hmem : ∃ t' ∈ ts, st.timeout ≤ t' - st.last_activity := by
          obtain ⟨t', ht', hle⟩ := h
          rcases List.mem_cons.mp ht' with he | he
          · exact absurd (he ▸ hle) htr
          · exact ⟨t', he, hle⟩
        simpa [hc] using ih st hidle hmem

/-- Every mushroom processed by the `_handle_idle` rebinding fold ends up
bound to the given scene value. -/
theorem fold_dset_all {v : Scene} (l : List Mushroom) :
    ∀ (d : List (ℕ × Scene)) (k : ℕ),
      (dget d k = some v ∨ k ∈ l.map Mushroom.id) →
      dget (l.foldl (fun d m => dset d m.id v) d) k = some v := by
  induction l with
  | nil =>
      intro d k h
      rcases h with h | h
      · exact h
      · simp at h
  | cons m0 rest ih =>
      intro d k h
      show dget (rest.foldl (fun d m => dset d m.id v) (dset d m0.id v)) k = some v
      refine ih (dset d m0.id v) k ?_
      by_cases hk : k = m0.id
      · subst hk
        exact Or.inl (dget_dset_self d m0.id v)
      · rcases h with h | h
        · exact Or.inl ((dget_dset_ne d m0.id k v hk).trans h)
        · rcases List.mem_map.mp h with ⟨m', hm', hid⟩
          rcases List.mem_cons.mp hm' with he | he
          · exact absurd (he ▸ hid).symm hk
          · exact Or.inr (List.mem_map.mpr ⟨m', he, hid⟩)

/-- C8: starting from a non-idle handler state, if some check instant of
the (activity-free) run sees the timeout elapsed, exactly one IDLE_TIMEOUT
event is published over the whole run (and never more than one from any
state while the flag stays set); handling that event rebinds every
mushroom to a freshly constructed, activated PastelFade instance. -/
theorem claim_C8_idle_once (st : IdleHandler) (ts : List ℚ) (sm : SceneManager)
    (hidle : st.is_idle = false)
    (htrig : ∃ t ∈ ts, st.timeout ≤ t - st.last_activity) :
    (st.checkRun ts).2 = 1 ∧
      (∀ (st2 : IdleHandler) (ts2 : List ℚ), (st2.checkRun ts2).2 ≤ 1) ∧
      ∀ m ∈ sm.mushrooms, dget (sm.handle_idle).scenes m.id = some freshPastel := by
  refine ⟨checkRun_eq_one ts st hidle htrig, fun st2 ts2 => checkRun_le_one ts2 st2, ?_⟩
  intro m hm
  exact fold_dset_all sm.mushrooms sm.scenes m.id
    (Or.inr (List.mem_map.mpr ⟨m, hm, rfl⟩))

theorem claim_C8_witness :
    ((⟨30, 0, false⟩ : IdleHandler).checkRun [31]).2 = 1 ∧
      (∀ (st2 : IdleHandler) (ts2 : List ℚ), (st2.checkRun ts2).2 ≤ 1) ∧
      ∀ m ∈ (⟨[⟨0, "m1", []⟩], [], [0], false⟩ : SceneManager).mushrooms,
        dget ((⟨[⟨0, "m1", []⟩], [], [0], false⟩ : SceneManager).handle_idle).scenes
            m.id = some freshPastel :=
  claim_C8_idle_once ⟨30, 0, false⟩ [31] ⟨[⟨0, "m1", []⟩], [], [0], false⟩ rfl
    ⟨31, by simp, by norm_num⟩

/-! ## C2: scene updates and blackout -/

theorem set_intensity_preserves_id (m : Mushroom) (v : ℚ) :
    (m.set_intensity v).id = m.id := rfl

/-- The non-blackout update loop touches only the dict slots of the
mushrooms it processes. -/
theorem updateLoop_scenes_other (M : MathFns) (dt : ℚ) (l : List Mushroom) :
    ∀ (scenes : List (ℕ × Scene)) (k : ℕ), (∀ m ∈ l, m.id ≠ k) →
      dget (SceneManager.updateLoop M dt l scenes).2 k = dget scenes k := by
  induction l with
  | nil => intro scenes k _; rfl
  | cons m0 rest ih =>
      intro scenes k hk
      have hk0 : m0.id ≠ k := hk m0 (List.mem_cons_self m0 rest)
      have hkr : ∀ m ∈ rest, m.id ≠ k := fun m hm => hk m (List.mem_cons_of_mem m0 hm)
      show dget (SceneManager.updateLoop M dt (m0 :: rest) scenes).2 k = _
      unfold SceneManager.updateLoop
      cases hs : dget scenes (m0.set_intensity 1).id with
      | none => simpa [hs] using ih scenes k hkr
      | some s =>
          have hpres : dget (dset scenes (m0.set_intensity 1).id
              (Scene.update M s (m0.set_intensity 1) dt).1) k =
                dget scenes k :=
            dget_dset_ne scenes (m0.set_intensity 1).id k _ (fun he => hk0 he.symm)
          simp only [hs]
          rw [ih _ k hkr, hpres]

/-- With pairwise distinct mushroom ids, after the non-blackout loop every
mushroom with a bound scene is bound to the updated scene object. -/
theorem updateLoop_scenes_mem (M : MathFns) (dt : ℚ) (l : List Mushroom) :
    ∀ (scenes : List (ℕ × Scene)) (m : Mushroom) (s : Scene),
      (l.map Mushroom.id).Nodup → m ∈ l → dget scenes m.id = some s →
      dget (SceneManager.updateLoop M dt l scenes).2 m.id =
        some (Scene.update M s (m.set_intensity 1) dt).1 := by
  induction l with
  | nil => intro scenes m s _ hm; simp at hm
  | cons m0 rest ih =>
      intro scenes m s hnodup hm hs
      have hnd := by simpa [List.nodup_cons] using hnodup
      rcases List.mem_cons.mp hm with he | he
      · subst he
        show dget (SceneManager.updateLoop M dt (m :: rest) scenes).2 m.id = _
        have hs2 : dget scenes (m.set_intensity 1).id = some s := hs
        unfold SceneManager.updateLoop
        simp only [hs2]
        have hothers : ∀ m2 ∈ rest, m2.id ≠ m.id := hnd.1
        rw [updateLoop_scenes_other M dt rest _ m.id hothers]
        exact dget_dset_self scenes m.id _
      · have hne : m.id ≠ m0.id := fun he2 => hnd.1 m he he2
        show dget (SceneManager.updateLoop M dt (m0 :: rest) scenes).2 m.id = _
        unfold SceneManager.updateLoop
        cases hs0 : dget scenes (m0.set_intensity 1).id with
        | none => simpa [hs0] using ih scenes m s hnd.2 he hs
        | some s0 =>
            have hpres : dget (dset scenes (m0.set_intensity 1).id
                (Scene.update M s0 (m0.set_intensity 1) dt).1) m.id = some s := by
              rw [dget_dset_ne scenes (m0.set_intensity 1).id m.id _ hne]
              exact hs
            simpa [hs0] using ih _ m s hnd.2 he hpres

/-- C2 corrected: on non-blackout ticks each mushroom with a bound scene
receives exactly the `update(group, dt)` call (the dict ends up holding
the updated scene object); on blackout ticks `SceneManager.update` returns
after zeroing every intensity, leaving every scene object — and so every
phase accumulator — untouched. -/
theorem claim_C2_scene_updates (M : MathFns) (sm : SceneManager) (dt : ℚ)
    (hnodup : (sm.mushrooms.map Mushroom.id).Nodup) :
    (sm.blackout = true →
      SceneManager.update M sm dt =
        { sm with mushrooms := sm.mushrooms.map (·.set_intensity 0) }) ∧
      (sm.blackout = false → ∀ m ∈ sm.mushrooms, ∀ s : Scene,
        dget sm.scenes m.id = some s →
        dget (SceneManager.update M sm dt).scenes m.id =
          some (Scene.update M s (m.set_intensity 1) dt).1) := by
  constructor
  · intro hb
    unfold SceneManager.update
    rw [hb]
    rfl
  · intro hb m hm s hs
    unfold SceneManager.update
    rw [hb]
    exact updateLoop_scenes_mem M dt sm.mushrooms sm.scenes m s hnodup hm hs

theorem claim_C2_witness :
    ((⟨[⟨0, "m1", []⟩], [(0, freshPastel)], [0], true⟩ : SceneManager).blackout = true →
      SceneManager.update mathZero ⟨[⟨0, "m1", []⟩], [(0, freshPastel)], [0], true⟩ 1 =
        { (⟨[⟨0, "m1", []⟩], [(0, freshPastel)], [0], true⟩ : SceneManager) with
            mushrooms :=
              (⟨[⟨0, "m1", []⟩], [(0, freshPastel)], [0], true⟩ : SceneManager).mushrooms.map
                (·.set_intensity 0) }) ∧
    ((⟨[⟨0, "m1", []⟩], [(0, freshPastel)], [0], true⟩ : SceneManager).blackout = false →
      ∀ m ∈ (⟨[⟨0, "m1", []⟩], [(0, freshPastel)], [0], true⟩ : SceneManager).mushrooms,
        ∀ s : Scene,
        dget (⟨[⟨0, "m1", []⟩], [(0, freshPastel)], [0], true⟩ : SceneManager).scenes m.id =
          some s →
        dget (SceneManager.update mathZero
            ⟨[⟨0, "m1", []⟩], [(0, freshPastel)], [0], true⟩ 1).scenes m.id =
          some (Scene.update mathZero s (m.set_intensity 1) 1).1) :=
  claim_C2_scene_updates mathZero ⟨[⟨0, "m1", []⟩], [(0, freshPastel)], [0], true⟩ 1
    (by simp)

/-- C2 counterexample: a blackout tick leaves the bound scene object
exactly as it was (its elapsed-time accumulator still 0), while one
`update(group, dt)` call at dt = 1 visibly changes it — so scenes do NOT
receive their update calls while blackout is active. -/
theorem claim_C2_counterexample :
    dget (SceneManager.update mathZero
        ⟨[⟨0, "m1", [RGBFixture.make "f" 1 3]⟩], [(0, freshPastel)], [0], true⟩ 1).scenes 0 =
      some freshPastel ∧
    (Scene.update mathZero freshPastel
        ((⟨0, "m1", [RGBFixture.make "f" 1 3]⟩ : Mushroom).set_intensity 1) 1).1 ≠
      freshPastel := by
  constructor
  · with_unfolding_all decide
  · with_unfolding_all decide

/-! ## DMX buffer lemmas -/

theorem set_channel_ne (buf : DMXBuffer) (a v slot : ℤ) (h : slot ≠ a) :
    buf.set_channel a v slot = buf slot := by
  unfold DMXBuffer.set_channel
  split
  · simp [h]
  · rfl

/-- A channel write leaves every slot outside its address range alone. -/
theorem set_channels_untouched (vs : List ℤ) :
    ∀ (buf : DMXBuffer) (a slot : ℤ),
      (∀ j : ℕ, j < vs.length → slot ≠ a + j) →
      buf.set_channels a vs slot = buf slot := by
  induction vs with
  | nil => intro buf a slot _; rfl
  | cons v tl ih =>
      intro buf a slot h
      show (buf.set_channel a v).set_channels (a + 1) tl slot = _
      rw [ih (buf.set_channel a v) (a + 1) slot ?_, set_channel_ne]
      · have := h 0 (by simp)
        simpa using this
      · intro j hj
        have := h (j + 1) (by simpa using hj)
        intro he
        apply this
        rw [he]
        push_cast
        ring

/-- A channel write puts the clamped value of entry `j` at slot
`address + j` when that slot is inside 1..512. -/
theorem set_channels_written (vs : List ℤ) :
    ∀ (buf : DMXBuffer) (a : ℤ) (j : ℕ), j < vs.length →
      1 ≤ a + (j : ℤ) → a + (j : ℤ) ≤ 512 →
      buf.set_channels a vs (a + (j : ℤ)) = clamp255 (vs.getD j 0) := by
  induction vs with
  | nil => intro buf a j hj _ _; simp at hj
  | cons v tl ih =>
      intro buf a j hj h1 h2
      show (buf.set_channel a v).set_channels (a + 1) tl (a + (j : ℤ)) = _
      cases j with
      | zero =>
          simp only [Nat.cast_zero, add_zero] at h1 h2 ⊢
          rw [set_channels_untouched tl _ (a + 1) a ?_]
          · unfold DMXBuffer.set_channel
            rw [if_pos ⟨h1, h2⟩]
            simp [List.getD]
          · intro k _ he
            omega
      | succ j' =>
          have he : a + ((j' + 1 : ℕ) : ℤ) = (a + 1) + (j' : ℤ) := by push_cast; ring
          rw [he, ih (buf.set_channel a v) (a + 1) j' (by simpa using hj)
            (by omega) (by omega)]
          simp [List.getD]

/-- Writing a list of zeros either preserves a slot or zeroes it. -/
theorem clamp255_zero : clamp255 0 = 0 := by decide

theorem set_channels_zero_or (vs : List ℤ) (hz : ∀ v ∈ vs, v = 0) :
    ∀ (buf : DMXBuffer) (a slot : ℤ),
      buf.set_channels a vs slot = buf slot ∨ buf.set_channels a vs slot = 0 := by
  induction vs with
  | nil => intro buf a slot; left; rfl
  | cons v tl ih =>
      intro buf a slot
      have hv : v = 0 := hz v (by simp)
      have htl : ∀ v2 ∈ tl, v2 = 0 := fun v2 hv2 => hz v2 (by simp [hv2])
      have hstep : buf.set_channels a (v :: tl) slot =
          (buf.set_channel a v).set_channels (a + 1) tl slot := rfl
      rcases ih htl (buf.set_channel a v) (a + 1) slot with h | h
      · rw [hstep, h]
        by_cases hr : 1 ≤ a ∧ a ≤ 512
        · by_cases hs : slot = a
          · right
            unfold DMXBuffer.set_channel
            rw [if_pos hr]
            simp [hs, hv, clamp255_zero]
          · left
            exact set_channel_ne buf a v slot hs
        · left
          unfold DMXBuffer.set_channel
          rw [if_neg hr]
      · right
        rw [hstep, h]

theorem Color.scaled_zero (c : Color) : c.scaled 0 = Color.make 0 0 0 := by
  unfold Color.scaled
  norm_num [pyInt_zero]

/-! ## Render-write and flash-override lemmas -/

/-- One fixture write of the render loop. -/
def writeFixture (md : Modulator) (buf : DMXBuffer) (f : RGBFixture) : DMXBuffer :=
  buf.set_channels f.address ((md.apply f.color).scaled f.intensity).to_dmx

theorem renderWrites_def (md : Modulator) (ms : List Mushroom) (buf : DMXBuffer) :
    renderWrites md ms buf =
      ms.foldl (fun buf m => m.fixtures.foldl (writeFixture md) buf) buf := rfl

theorem getD_zero3 (i : ℕ) : ([0, 0, 0] : List ℤ).getD i 0 = 0 := by
  rcases i with _ | _ | _ | i <;> rfl

/-- A zero-intensity fixture writes `[0, 0, 0]`. -/
theorem writeFixture_zero (md : Modulator) (buf : DMXBuffer) (f : RGBFixture)
    (hf : f.intensity = 0) :
    writeFixture md buf f = buf.set_channels f.address [0, 0, 0] := by
  unfold writeFixture
  rw [hf, Color.scaled_zero]
  rfl

theorem fixtures_fold_zero_or (md : Modulator) (fs : List RGBFixture)
    (hz : ∀ f ∈ fs, f.intensity = 0) :
    ∀ (buf : DMXBuffer) (slot : ℤ),
      (fs.foldl (writeFixture md) buf) slot = buf slot ∨
        (fs.foldl (writeFixture md) buf) slot = 0 := by
  induction fs with
  | nil => intro buf slot; left; rfl
  | cons g tl ih =>
      intro buf slot
      have hg : g.intensity = 0 := hz g (by simp)
      have htl : ∀ f ∈ tl, f.intensity = 0 := fun f hf => hz f (by simp [hf])
      show (tl.foldl (writeFixture md) (writeFixture md buf g)) slot = buf slot ∨
        (tl.foldl (writeFixture md) (writeFixture md buf g)) slot = 0
      rcases ih htl (writeFixture md buf g) slot with h | h
      · rw [h, writeFixture_zero md buf g hg]
        exact set_channels_zero_or [0, 0, 0] (by simp) buf g.address slot
      · right; exact h

theorem fixtures_fold_zero_covered (md : Modulator) (fs : List RGBFixture)
    (hz : ∀ f ∈ fs, f.intensity = 0) (f : RGBFixture) (hf : f ∈ fs) (i : ℕ)
    (hi : i < 3) (h1 : 1 ≤ f.address + (i : ℤ)) (h2 : f.address + (i : ℤ) ≤ 512) :
    ∀ buf : DMXBuffer, (fs.foldl (writeFixture md) buf) (f.address + (i : ℤ)) = 0 := by
  induction fs with
  | nil => simp at hf
  | cons g tl ih =>
      intro buf
      have hg : g.intensity = 0 := hz g (by simp)
      have htl : ∀ f2 ∈ tl, f2.intensity = 0 := fun f2 hf2 => hz f2 (by simp [hf2])
      show (tl.foldl (writeFixture md) (writeFixture md buf g)) (f.address + (i : ℤ)) = 0
      rcases List.mem_cons.mp hf with he | he
      · subst he
        have hw : (writeFixture md buf f) (f.address + (i : ℤ)) = 0 := by
          rw [writeFixture_zero md buf f hg,
            set_channels_written [0, 0, 0] buf f.address i (by simpa using hi) h1 h2,
            getD_zero3, clamp255_zero]
        rcases fixtures_fold_zero_or md tl htl (writeFixture md buf f)
            (f.address + (i : ℤ)) with h | h
        · rw [h, hw]
        · exact h
      · exact ih htl he (writeFixture md buf g)

theorem renderWrites_zero_or (md : Modulator) (ms : List Mushroom)
    (hz : ∀ m ∈ ms, ∀ f ∈ m.fixtures, f.intensity = 0) :
    ∀ (buf : DMXBuffer) (slot : ℤ),
      renderWrites md ms buf slot = buf slot ∨ renderWrites md ms buf slot = 0 := by
  induction ms with
  | nil => intro buf slot; left; rfl
  | cons m0 tl ih =>
      intro buf slot
      have hm0 : ∀ f ∈ m0.fixtures, f.intensity = 0 := hz m0 (by simp)
      have htl : ∀ m ∈ tl, ∀ f ∈ m.fixtures, f.intensity = 0 :=
        fun m hm => hz m (by simp [hm])
      show renderWrites md tl (m0.fixtures.foldl (writeFixture md) buf) slot = buf slot ∨
        renderWrites md tl (m0.fixtures.foldl (writeFixture md) buf) slot = 0
      rcases ih htl (m0.fixtures.foldl (writeFixture md) buf) slot with h | h
      · rw [h]
        exact fixtures_fold_zero_or md m0.fixtures hm0 buf slot
      · right; exact h

theorem renderWrites_zero_covered (md : Modulator) (ms : List Mushroom)
    (hz : ∀ m ∈ ms, ∀ f ∈ m.fixtures, f.intensity = 0) (m : Mushroom)
    (hm : m ∈ ms) (f : RGBFixture) (hf : f ∈ m.fixtures) (i : ℕ) (hi : i < 3)
    (h1 : 1 ≤ f.address + (i : ℤ)) (h2 : f.address + (i : ℤ) ≤ 512) :
    ∀ buf : DMXBuffer, renderWrites md ms buf (f.address + (i : ℤ)) = 0 := by
  induction ms with
  | nil => simp at hm
  | cons m0 tl ih =>
      intro buf
      have hm0 : ∀ f2 ∈ m0.fixtures, f2.intensity = 0 := hz m0 (by simp)
      have htl : ∀ m2 ∈ tl, ∀ f2 ∈ m2.fixtures, f2.intensity = 0 :=
        fun m2 hm2 => hz m2 (by simp [hm2])
      show renderWrites md tl (m0.fixtures.foldl (writeFixture md) buf)
        (f.address + (i : ℤ)) = 0
      rcases List.mem_cons.mp hm with he | he
      · subst he
        have hw := fixtures_fold_zero_covered md m.fixtures hm0 f hf i hi h1 h2 buf
        rcases renderWrites_zero_or md tl htl
            (m.fixtures.foldl (writeFixture md) buf) (f.address + (i : ℤ)) with h | h
        · rw [h, hw]
        · exact h
      · exact ih htl he (m0.fixtures.foldl (writeFixture md) buf)

/-- One step of the flash-override pass. -/
def flashStep (now : ℚ) (acc : DMXBuffer × List Flash) (f : Flash) :
    DMXBuffer × List Flash :=
  if now < f.end_time then
    (acc.1.set_channels f.address (f.color.take f.channels), acc.2 ++ [f])
  else acc

theorem flashLoop_def (now : ℚ) (queue : List Flash) (buf : DMXBuffer) :
    flashLoop now queue buf = queue.foldl (flashStep now) (buf, []) := rfl

/-- The flash pass never touches a slot outside the ranges of the active
requests. -/
theorem flashFold_untouched (now : ℚ) (queue : List Flash) :
    ∀ (buf : DMXBuffer) (acc : List Flash) (slot : ℤ),
      (∀ g ∈ queue, now < g.end_time →
        ∀ k : ℕ, k < (g.color.take g.channels).length → slot ≠ g.address + (k : ℤ)) →
      (queue.foldl (flashStep now) (buf, acc)).1 slot = buf slot := by
  induction queue with
  | nil => intro buf acc slot _; rfl
  | cons g tl ih =>
      intro buf acc slot h
      have hg := h g (by simp)
      have htl : ∀ g2 ∈ tl, now < g2.end_time →
          ∀ k : ℕ, k < (g2.color.take g2.channels).length →
            slot ≠ g2.address + (k : ℤ) :=
        fun g2 hg2 => h g2 (by simp [hg2])
      show (tl.foldl (flashStep now) (flashStep now (buf, acc) g)).1 slot = _
      by_cases hact : now < g.end_time
      · have hstep : flashStep now (buf, acc) g =
            (buf.set_channels g.address (g.color.take g.channels), acc ++ [g]) := by
          unfold flashStep; rw [if_pos hact]
        rw [hstep, ih _ _ slot htl]
        exact set_channels_untouched (g.color.take g.channels) buf g.address slot
          (hg hact)
      · have hstep : flashStep now (buf, acc) g = (buf, acc) := by
          unfold flashStep; rw [if_neg hact]
        rw [hstep, ih _ _ slot htl]

/-- The flash pass keeps exactly the not-yet-expired requests, in order. -/
theorem flashFold_queue (now : ℚ) (queue : List Flash) :
    ∀ (buf : DMXBuffer) (acc : List Flash),
      (queue.foldl (flashStep now) (buf, acc)).2 =
        acc ++ queue.filter (fun g => decide (now < g.end_time)) := by
  induction queue with
  | nil => intro buf acc; simp
  | cons g tl ih =>
      intro buf acc
      show (tl.foldl (flashStep now) (flashStep now (buf, acc) g)).2 = _
      by_cases hact : now < g.end_time
      · have hstep : flashStep now (buf, acc) g =
            (buf.set_channels g.address (g.color.take g.channels), acc ++ [g]) := by
          unfold flashStep; rw [if_pos hact]
        rw [hstep, ih]
        simp [List.filter_cons, hact]
      · have hstep : flashStep now (buf, acc) g = (buf, acc) := by
          unfold flashStep; rw [if_neg hact]
        rw [hstep, ih]
        simp [List.filter_cons, hact]

/-- An active request whose range no later active request overlaps leaves
its clamped truncated color at its slots. -/
theorem flashFold_written (now : ℚ) (q1 q2 : List Flash) (fl : Flash) (j : ℕ)
    (hact : now < fl.end_time) (hj : j < (fl.color.take fl.channels).length)
    (h1 : 1 ≤ fl.address + (j : ℤ)) (h2 : fl.address + (j : ℤ) ≤ 512)
    (hq2 : ∀ g ∈ q2, now < g.end_time →
      ∀ k : ℕ, k < (g.color.take g.channels).length →
        fl.address + (j : ℤ) ≠ g.address + (k : ℤ)) :
    ∀ (buf : DMXBuffer) (acc : List Flash),
      ((q1 ++ fl :: q2).foldl (flashStep now) (buf, acc)).1 (fl.address + (j : ℤ)) =
        clamp255 ((fl.color.take fl.channels).getD j 0) := by
  intro buf acc
  rw [List.foldl_append]
  rcases hp : q1.foldl (flashStep now) (buf, acc) with ⟨B1, A1⟩
  show ((fl :: q2).foldl (flashStep now) (B1, A1)).1 _ = _
  have hstep : flashStep now (B1, A1) fl =
      (B1.set_channels fl.address (fl.color.take fl.channels), A1 ++ [fl]) := by
    unfold flashStep; rw [if_pos hact]
  show (q2.foldl (flashStep now) (flashStep now (B1, A1) fl)).1 _ = _
  rw [hstep, flashFold_untouched now q2 _ _ _ hq2]
  exact set_channels_written (fl.color.take fl.channels) B1 fl.address j hj h1 h2

/-! ## C1: blackout and the transmitted buffer -/

/-- C1 corrected: while blackout is active, the three channel values the
render loop writes for every tracked fixture are 0, regardless of scene
state, modulator state and previous buffer contents — PROVIDED no pending
unexpired flash-override request covers those slots. (Flash overrides are
applied after the blackout-zeroed pipeline output and take priority over
it; see the counterexample.) -/
theorem claim_C1_blackout_zeroes (M : MathFns) (st : LightingController)
    (now dt : ℚ) (m : Mushroom) (f : RGBFixture) (i : ℕ)
    (hb : st.sm.blackout = true) (hm : m ∈ st.sm.mushrooms) (hf : f ∈ m.fixtures)
    (hi : i < 3)
    (hflash : ∀ g ∈ st.flash_queue, now < g.end_time →
      ∀ k : ℕ, k < (g.color.take g.channels).length →
        f.address + (i : ℤ) ≠ g.address + (k : ℤ)) :
    (st.render_tick M now dt).dmx.get_channel (f.address + (i : ℤ)) = 0 := by
  have hsm : (SceneManager.update M st.sm dt).mushrooms =
      st.sm.mushrooms.map (·.set_intensity 0) := by
    unfold SceneManager.update
    rw [hb]
    rfl
  have hz : ∀ m2 ∈ st.sm.mushrooms.map (·.set_intensity 0),
      ∀ f2 ∈ m2.fixtures, f2.intensity = 0 := by
    intro m2 hm2 f2 hf2
    obtain ⟨m0, _, rfl⟩ := List.mem_map.mp hm2
    obtain ⟨f0, _, rfl⟩ := List.mem_map.mp hf2
    show max 0 (min 1 (0 : ℚ)) = 0
    norm_num
  by_cases hr : 1 ≤ f.address + (i : ℤ) ∧ f.address + (i : ℤ) ≤ 512
  · show DMXBuffer.get_channel _ _ = 0
    unfold DMXBuffer.get_channel
    rw [if_pos hr]
    have hfl : (st.render_tick M now dt).dmx =
        (st.flash_queue.foldl (flashStep now)
          (renderWrites (Modulator.update M st.modulator dt)
            (SceneManager.update M st.sm dt).mushrooms st.dmx, [])).1 := rfl
    rw [hfl, flashFold_untouched now st.flash_queue _ [] _ hflash, hsm]
    have hm2 : m.set_intensity 0 ∈ st.sm.mushrooms.map (·.set_intensity 0) :=
      List.mem_map.mpr ⟨m, hm, rfl⟩
    have hf2 : f.intensity_assign 0 ∈ (m.set_intensity 0).fixtures :=
      List.mem_map.mpr ⟨f, hf, rfl⟩
    exact renderWrites_zero_covered (Modulator.update M st.modulator dt)
      (st.sm.mushrooms.map (·.set_intensity 0)) hz (m.set_intensity 0) hm2
      (f.intensity_assign 0) hf2 i hi hr.1 hr.2 st.dmx
  · show DMXBuffer.get_channel _ _ = 0
    unfold DMXBuffer.get_channel
    rw [if_neg hr]

theorem claim_C1_witness :
    ((⟨⟨[⟨0, "m1", [RGBFixture.make "f" 1 3]⟩], [(0, freshPastel)], [0], true⟩,
        Modulator.make, [], DMXBuffer.init⟩ : LightingController).render_tick
          mathZero 0 1).dmx.get_channel (1 + ((0 : ℕ) : ℤ)) = 0 :=
  claim_C1_blackout_zeroes mathZero
    ⟨⟨[⟨0, "m1", [RGBFixture.make "f" 1 3]⟩], [(0, freshPastel)], [0], true⟩,
      Modulator.make, [], DMXBuffer.init⟩ 0 1
    ⟨0, "m1", [RGBFixture.make "f" 1 3]⟩ (RGBFixture.make "f" 1 3) 0 rfl
    (by simp) (by simp) (by norm_num) (by intro g hg; simp at hg)

/-- C1 counterexample: with blackout active and a pending unexpired flash
request at the tracked fixture address 1, the tick transmits 255 at that
address, not 0 — the blackout zeroing does NOT override pending
flash-override requests. -/
theorem claim_C1_counterexample :
    (⟨⟨[⟨0, "m1", [RGBFixture.make "f" 1 3]⟩], [(0, freshPastel)], [0], true⟩,
        Modulator.make, [⟨1, 3, [255, 0, 0], 100⟩], DMXBuffer.init⟩ :
        LightingController).sm.blackout = true ∧
      ((⟨⟨[⟨0, "m1", [RGBFixture.make "f" 1 3]⟩], [(0, freshPastel)], [0], true⟩,
          Modulator.make, [⟨1, 3, [255, 0, 0], 100⟩], DMXBuffer.init⟩ :
          LightingController).render_tick mathZero 0 1).dmx.get_channel 1 = 255 := by
  constructor
  · rfl
  · with_unfolding_all decide

/-! ## C3: flash overrides -/

/-- C3: for a queued flash request whose expiry has not passed (the queue
holding one request per address, as `add_flash` maintains, with active
ranges not overlapping the ranges of other requests): this tick transmits
at the slots of the request address exactly the requested color truncated
to the channel count (clamped into DMX range); every request is purged
from the queue on the first tick at or after its expiry (the new queue is
exactly the unexpired ones, in order); and every slot outside the ranges
of all active requests carries exactly the scene/modulator pipeline
output, so after expiry output reverts to the pipeline with no further
action. -/
theorem claim_C3_flash_override (M : MathFns) (st : LightingController)
    (now dt : ℚ) (fl : Flash) (hmem : fl ∈ st.flash_queue)
    (hact : now < fl.end_time)
    (hnodup : (st.flash_queue.map Flash.address).Nodup)
    (hdisj : ∀ g ∈ st.flash_queue, g.address ≠ fl.address → now < g.end_time →
      ∀ j k : ℕ, j < (fl.color.take fl.channels).length →
        k < (g.color.take g.channels).length →
        fl.address + (j : ℤ) ≠ g.address + (k : ℤ)) :
    (∀ j : ℕ, j < (fl.color.take fl.channels).length →
      1 ≤ fl.address + (j : ℤ) → fl.address + (j : ℤ) ≤ 512 →
      (st.render_tick M now dt).dmx.get_channel (fl.address + (j : ℤ)) =
        clamp255 ((fl.color.take fl.channels).getD j 0)) ∧
    (st.render_tick M now dt).flash_queue =
      st.flash_queue.filter (fun g => decide (now < g.end_time)) ∧
    (∀ slot : ℤ, (∀ g ∈ st.flash_queue, now < g.end_time →
        ∀ k : ℕ, k < (g.color.take g.channels).length → slot ≠ g.address + (k : ℤ)) →
      (st.render_tick M now dt).dmx.get_channel slot =
        (renderWrites (Modulator.update M st.modulator dt)
          (SceneManager.update M st.sm dt).mushrooms st.dmx).get_channel slot) := by
  have hfl : (st.render_tick M now dt).dmx =
      (st.flash_queue.foldl (flashStep now)
        (renderWrites (Modulator.update M st.modulator dt)
          (SceneManager.update M st.sm dt).mushrooms st.dmx, [])).1 := rfl
  have hflq : (st.render_tick M now dt).flash_queue =
      (st.flash_queue.foldl (flashStep now)
        (renderWrites (Modulator.update M st.modulator dt)
          (SceneManager.update M st.sm dt).mushrooms st.dmx, [])).2 := rfl
  refine ⟨?_, ?_, ?_⟩
  · intro j hj h1 h2
    obtain ⟨q1, q2, hsplit⟩ := List.append_of_mem hmem
    have hns : (q1.map Flash.address ++
        fl.address :: q2.map Flash.address).Nodup := by
      rw [hsplit] at hnodup
      simpa using hnodup
    have hnd2 : fl.address ∉ q2.map Flash.address :=
      (List.nodup_cons.mp (List.nodup_append.mp hns).2.1).1
    have hq2 : ∀ g ∈ q2, now < g.end_time →
        ∀ k : ℕ, k < (g.color.take g.channels).length →
          fl.address + (j : ℤ) ≠ g.address + (k : ℤ) := by
      intro g hg hgact k hk
      have hgmem : g ∈ st.flash_queue := by
        rw [hsplit]
        exact List.mem_append_right q1 (List.mem_cons_of_mem fl hg)
      have hgaddr : g.address ≠ fl.address := fun he =>
        hnd2 (he ▸ List.mem_map.mpr ⟨g, hg, rfl⟩)
      exact hdisj g hgmem hgaddr hgact j k hj hk
    show DMXBuffer.get_channel _ _ = _
    unfold DMXBuffer.get_channel
    rw [if_pos ⟨h1, h2⟩, hfl, hsplit]
    exact flashFold_written now q1 q2 fl j hact hj h1 h2 hq2 _ []
  · rw [hflq, flashFold_queue]
    simp
  · intro slot hslot
    by_cases hr : 1 ≤ slot ∧ slot ≤ 512
    · show DMXBuffer.get_channel _ _ = DMXBuffer.get_channel _ _
      unfold DMXBuffer.get_channel
      rw [if_pos hr, if_pos hr, hfl,
        flashFold_untouched now st.flash_queue _ [] slot hslot]
    · show DMXBuffer.get_channel _ _ = DMXBuffer.get_channel _ _
      unfold DMXBuffer.get_channel
      rw [if_neg hr, if_neg hr]

theorem claim_C3_witness :
    (∀ j : ℕ,
      j < ((⟨1, 3, [255, 0, 0], 100⟩ : Flash).color.take
          (⟨1, 3, [255, 0, 0], 100⟩ : Flash).channels).length →
      1 ≤ (⟨1, 3, [255, 0, 0], 100⟩ : Flash).address + (j : ℤ) →
      (⟨1, 3, [255, 0, 0], 100⟩ : Flash).address + (j : ℤ) ≤ 512 →
      ((⟨⟨[], [], [], false⟩, Modulator.make, [⟨1, 3, [255, 0, 0], 100⟩],
          DMXBuffer.init⟩ : LightingController).render_tick mathZero 0 1).dmx.get_channel
          ((⟨1, 3, [255, 0, 0], 100⟩ : Flash).address + (j : ℤ)) =
        clamp255 (((⟨1, 3, [255, 0, 0], 100⟩ : Flash).color.take
          (⟨1, 3, [255, 0, 0], 100⟩ : Flash).channels).getD j 0)) ∧
    ((⟨⟨[], [], [], false⟩, Modulator.make, [⟨1, 3, [255, 0, 0], 100⟩],
        DMXBuffer.init⟩ : LightingController).render_tick mathZero 0 1).flash_queue =
      [⟨1, 3, [255, 0, 0], 100⟩].filter (fun g => decide ((0 : ℚ) < g.end_time)) ∧
    (∀ slot : ℤ, (∀ g ∈ ([⟨1, 3, [255, 0, 0], 100⟩] : List Flash),
        (0 : ℚ) < g.end_time →
        ∀ k : ℕ, k < (g.color.take g.channels).length → slot ≠ g.address + (k : ℤ)) →
      ((⟨⟨[], [], [], false⟩, Modulator.make, [⟨1, 3, [255, 0, 0], 100⟩],
          DMXBuffer.init⟩ : LightingController).render_tick mathZero 0 1).dmx.get_channel
          slot =
        (renderWrites (Modulator.update mathZero Modulator.make 1)
          (SceneManager.update mathZero ⟨[], [], [], false⟩ 1).mushrooms
          DMXBuffer.init).get_channel slot) :=
  claim_C3_flash_override mathZero
    ⟨⟨[], [], [], false⟩, Modulator.make, [⟨1, 3, [255, 0, 0], 100⟩], DMXBuffer.init⟩
    0 1 ⟨1, 3, [255, 0, 0], 100⟩ (by simp) (by norm_num) (by simp)
    (by
      intro g hg hne
      simp only [List.mem_singleton] at hg
      subst hg
      exact absurd rfl hne)
